import Mathlib

/-!
Verification development for the form-builder repository.

Shallow embedding of the real-time WebSocket hub (backend `websocket`
package: `Hub`, `Client`, `Hub.Run`, `Hub.BroadcastToForm`, `Client.readPump`),
the on-demand analytics aggregation (`backend/controllers/response.go`:
`calculateCompletionMetrics`, `calculateResponseTrends`,
`calculateEnhancedFieldAnalytics`, `calculateAnalytics`) and the frontend
reconnecting WebSocket client (`frontend/src/types/index.ts` tail:
`WebSocketClient`).

Modelling conventions: a Go buffered channel is a queue (list of pending
messages) together with its capacity and a closed flag; a non-blocking
`select { case ch <- m: default: ... }` succeeds exactly when the buffer is
not full; closing an already-closed channel is a runtime panic, modelled as
an `Except.error`.  The Go registry map `h.Clients` is modelled as a list of
clients each carrying a `registered` flag (registry membership); Go map
deletion sets the flag to `false`.  Floating point arithmetic is modelled
over `ℚ`.
-/

namespace FormBuilder

/-! ## Hub model (backend `websocket` package) -/

/-- A WebSocket client, as the source's `Client` struct plus the hub-visible
state of its `Send` channel and its membership in `h.Clients`.
`formID = ""` is the zero value of `Client.FormID`: not subscribed to any
specific form (general subscription). -/
structure Client where
  id : Nat
  formID : String
  queue : List String
  cap : Nat
  registered : Bool
  closed : Bool
  deriving DecidableEq, Repr

/-- The non-blocking send with eviction used in `Hub.Run`'s broadcast case and
in `Hub.BroadcastToForm`: `select { case client.Send <- m: default:
close(client.Send); delete(h.Clients, client) }`. -/
def deliver (m : String) (c : Client) : Client :=
  if c.queue.length < c.cap then
    { c with queue := c.queue ++ [m] }
  else
    { c with closed := true, registered := false }

/-- One client's treatment inside the `Hub.BroadcastToForm` loop: a client is
targeted iff it is in the registry and `client.FormID == "" || client.FormID
== formID`; targeted clients get the non-blocking send, others are untouched. -/
def bcastOne (formID m : String) (c : Client) : Client :=
  if c.registered ∧ (c.formID = "" ∨ c.formID = formID) then deliver m c else c

/-- `Hub.BroadcastToForm formID` applied to the whole client list
(the source's `for client := range h.Clients` visits exactly the registered
clients; unregistered ones are untouched, which `bcastOne` guarantees). -/
def broadcastToForm (cs : List Client) (formID m : String) : List Client :=
  cs.map (bcastOne formID m)

/-- Closing a Go channel: a runtime panic (modelled as an error) if it is
already closed. -/
def closeSend (c : Client) : Except String Client :=
  if c.closed then Except.error "close of closed channel"
  else Except.ok { c with closed := true }

/-- The `Unregister` case of `Hub.Run` for one client: only a client present
in the registry (`if _, ok := h.Clients[client]; ok`) is deleted and has its
`Send` channel closed. -/
def unregClient (cid : Nat) (c : Client) : Except String Client :=
  if c.id = cid ∧ c.registered then do
    let c' ← closeSend c
    Except.ok { c' with registered := false }
  else Except.ok c

/-- The `Unregister` case of `Hub.Run` over the whole client list. -/
def unregister : List Client → Nat → Except String (List Client)
  | [], _ => Except.ok []
  | c :: cs, cid => do
    let c' ← unregClient cid c
    let cs' ← unregister cs cid
    Except.ok (c' :: cs')

/-- Pure effect of a processed `Unregister` request on one client: a
registered client with the requested identity leaves the registry and has its
queue closed; any other client is untouched. -/
def unregPure (cid : Nat) (c : Client) : Client :=
  if c.id = cid ∧ c.registered then { c with registered := false, closed := true }
  else c

/-- The `Register` case of `Hub.Run`: `h.Clients[client] = true`. -/
def registerClient (cs : List Client) (c : Client) : List Client :=
  cs ++ [{ c with registered := true }]

/-- The `ping` case of `Client.readPump`: marshal a `pong` reply and attempt a
non-blocking send; on a full buffer the `default:` branch only logs
`"Drop pong (buffer full)"` — no close, no eviction. -/
def handlePing (pong : String) (c : Client) : Client :=
  if c.queue.length < c.cap then { c with queue := c.queue ++ [pong] } else c

/-- Registry invariant: every registered client has an open `Send` channel
(`Hub.Run` closes a channel only when it simultaneously deletes the client). -/
def RegInv (cs : List Client) : Prop :=
  ∀ c ∈ cs, c.registered = true → c.closed = false

lemma broadcastToForm_length (cs : List Client) (a m : String) :
    (broadcastToForm cs a m).length = cs.length := by
  simp [broadcastToForm]

lemma broadcastToForm_get (cs : List Client) (a m : String) (i : Nat)
    (h : i < cs.length) :
    (broadcastToForm cs a m).get ⟨i, by simpa [broadcastToForm] using h⟩
      = bcastOne a m (cs.get ⟨i, h⟩) := by
  simp [broadcastToForm]

/-- C1: a broadcast with a set topic is delivered (enqueued, given buffer
space) to every registered connection subscribed to that topic, leaves every
registered connection subscribed to a different topic untouched, and leaves
unregistered connections untouched; the fan-out is element-wise over the
client list. -/
theorem broadcastToForm_topic_exact
    (cs : List Client) (a m : String) (_ha : a ≠ "")
    (hspace : ∀ c ∈ cs, c.registered = true → c.queue.length < c.cap) :
    (broadcastToForm cs a m).length = cs.length
    ∧ (∀ i (h : i < cs.length),
        (broadcastToForm cs a m).get ⟨i, by simpa [broadcastToForm] using h⟩
          = bcastOne a m (cs.get ⟨i, h⟩))
    ∧ (∀ c ∈ cs, c.registered = true → c.formID = a →
        bcastOne a m c = { c with queue := c.queue ++ [m] })
    ∧ (∀ c ∈ cs, c.registered = true → c.formID ≠ "" → c.formID ≠ a →
        bcastOne a m c = c)
    ∧ (∀ c ∈ cs, c.registered = false → bcastOne a m c = c) := by
  refine ⟨broadcastToForm_length cs a m, broadcastToForm_get cs a m, ?_, ?_, ?_⟩
  · intro c hc hreg htop
    have hs := hspace c hc hreg
    simp [bcastOne, deliver, hreg, htop, hs]
  · intro c hc hreg hne hna
    simp [bcastOne, hreg, hne, hna]
  · intro c hc hreg
    simp [bcastOne, hreg]

/-- Witness for C1 at a concrete hub: two clients subscribed to topics
`"A"` and `"B"`, broadcast on `"A"`. -/
theorem broadcastToForm_topic_exact_witness :
    bcastOne "A" "x"
        (Client.mk 1 "A" [] 2 true false)
      = Client.mk 1 "A" ["x"] 2 true false
    ∧ bcastOne "A" "x"
        (Client.mk 2 "B" [] 2 true false)
      = Client.mk 2 "B" [] 2 true false := by
  have h := broadcastToForm_topic_exact
    [Client.mk 1 "A" [] 2 true false, Client.mk 2 "B" [] 2 true false]
    "A" "x" (by decide) (by intro c hc _; fin_cases hc <;> decide)
  exact ⟨h.2.2.1 (Client.mk 1 "A" [] 2 true false) (by simp) rfl rfl,
    h.2.2.2.1 (Client.mk 2 "B" [] 2 true false) (by simp) rfl (by decide) (by decide)⟩

/-- C2: in a single `BroadcastToForm` call, every targeted connection whose
queue is full is evicted (queue closed, dropped from the registry) while every
other targeted connection with buffer space still gets the event enqueued; the
fan-out is element-wise (one slow consumer cannot affect any other client's
outcome). -/
theorem broadcastToForm_evicts_slow
    (cs : List Client) (a m : String) :
    (broadcastToForm cs a m).length = cs.length
    ∧ (∀ i (h : i < cs.length),
        (broadcastToForm cs a m).get ⟨i, by simpa [broadcastToForm] using h⟩
          = bcastOne a m (cs.get ⟨i, h⟩))
    ∧ (∀ c ∈ cs, c.registered = true → (c.formID = "" ∨ c.formID = a) →
        (¬ c.queue.length < c.cap →
          (bcastOne a m c).registered = false ∧ (bcastOne a m c).closed = true
          ∧ (bcastOne a m c).queue = c.queue)
        ∧ (c.queue.length < c.cap →
          (bcastOne a m c).queue = c.queue ++ [m]
          ∧ (bcastOne a m c).registered = true
          ∧ (bcastOne a m c).closed = c.closed)) := by
  refine ⟨broadcastToForm_length cs a m, broadcastToForm_get cs a m, ?_⟩
  intro c hc hreg htgt
  constructor
  · intro hfull
    simp [bcastOne, deliver, hreg, htgt, hfull]
  · intro hsp
    simp [bcastOne, deliver, hreg, htgt, hsp]

/-- Witness for C2: a saturated client (capacity 0) and a healthy client, both
subscribed to the broadcast topic. -/
theorem broadcastToForm_evicts_slow_witness :
    ((bcastOne "A" "x" (Client.mk 1 "A" [] 0 true false)).registered = false
      ∧ (bcastOne "A" "x" (Client.mk 1 "A" [] 0 true false)).closed = true
      ∧ (bcastOne "A" "x" (Client.mk 1 "A" [] 0 true false)).queue = [])
    ∧ (bcastOne "A" "x" (Client.mk 2 "A" [] 2 true false)).queue = ["x"] := by
  have h := broadcastToForm_evicts_slow
    [Client.mk 1 "A" [] 0 true false, Client.mk 2 "A" [] 2 true false] "A" "x"
  refine ⟨(h.2.2 (Client.mk 1 "A" [] 0 true false) (by simp) rfl (Or.inr rfl)).1
      (by decide), ?_⟩
  exact ((h.2.2 (Client.mk 2 "A" [] 2 true false) (by simp) rfl (Or.inr rfl)).2
      (by decide)).1

lemma unregClient_eq_ok (cid : Nat) (c : Client)
    (h : c.registered = true → c.closed = false) :
    unregClient cid c = Except.ok (unregPure cid c) := by
  by_cases hreg : c.id = cid ∧ c.registered = true
  · have hclosed : c.closed = false := h hreg.2
    unfold unregClient closeSend unregPure
    rw [if_pos hreg, if_pos hreg, if_neg (show ¬ c.closed = true by simp [hclosed])]
    rfl
  · unfold unregClient unregPure
    rw [if_neg hreg, if_neg hreg]

lemma unregister_eq_ok (cs : List Client) (cid : Nat)
    (hinv : RegInv cs) :
    unregister cs cid = Except.ok (cs.map (unregPure cid)) := by
  induction cs with
  | nil => rfl
  | cons c cs ih =>
    have h1 := unregClient_eq_ok cid c (hinv c (by simp))
    have ih' := ih (fun d hd => hinv d (by simp [hd]))
    simp only [unregister, h1, ih', List.map_cons]
    rfl

lemma unregPure_idem (cid : Nat) (c : Client) :
    unregPure cid (unregPure cid c) = unregPure cid c := by
  by_cases h : c.id = cid ∧ c.registered = true <;> simp [unregPure, h]

lemma regInv_unregPure (cs : List Client) (cid : Nat) (hinv : RegInv cs) :
    RegInv (cs.map (unregPure cid)) := by
  intro c hc hreg
  rcases List.mem_map.mp hc with ⟨d, hd, rfl⟩
  by_cases h : d.id = cid ∧ d.registered = true
  · simp [unregPure, h] at hreg
  · simp only [unregPure, if_neg h] at hreg ⊢
    exact hinv d hd hreg

/-- C6: processing an `Unregister` request never panics (given the registry
invariant that registered clients have open channels), removes the named
connection from the registry and closes its queue when present, is a no-op on
every client that is absent (different identity, or already unregistered), and
processing the same request a second time returns the same registry without
error. -/
theorem unregister_idempotent (cs : List Client) (cid : Nat)
    (hinv : RegInv cs) :
    unregister cs cid = Except.ok (cs.map (unregPure cid))
    ∧ unregister (cs.map (unregPure cid)) cid = Except.ok (cs.map (unregPure cid))
    ∧ (∀ c : Client, c.id ≠ cid → unregPure cid c = c)
    ∧ (∀ c : Client, c.registered = false → unregPure cid c = c)
    ∧ (∀ c : Client, c.id = cid → c.registered = true →
        (unregPure cid c).registered = false ∧ (unregPure cid c).closed = true) := by
  refine ⟨unregister_eq_ok cs cid hinv, ?_, ?_, ?_, ?_⟩
  · have h2 := unregister_eq_ok (cs.map (unregPure cid)) cid
      (regInv_unregPure cs cid hinv)
    have h3 : (cs.map (unregPure cid)).map (unregPure cid) = cs.map (unregPure cid) := by
      rw [List.map_map]
      exact List.map_congr_left (fun c _ => unregPure_idem cid c)
    rw [h2, h3]
  · intro c hne
    simp [unregPure, hne]
  · intro c hreg
    simp [unregPure, hreg]
  · intro c hid hreg
    simp [unregPure, hid, hreg]

/-- Witness for C6: a two-client registry; unregistering client 1 twice. -/
theorem unregister_idempotent_witness :
    unregister [Client.mk 1 "A" [] 2 true false, Client.mk 2 "B" [] 2 true false] 1
      = Except.ok [Client.mk 1 "A" [] 2 false true, Client.mk 2 "B" [] 2 true false]
    ∧ unregister [Client.mk 1 "A" [] 2 false true, Client.mk 2 "B" [] 2 true false] 1
      = Except.ok [Client.mk 1 "A" [] 2 false true, Client.mk 2 "B" [] 2 true false] := by
  have h := unregister_idempotent
    [Client.mk 1 "A" [] 2 true false, Client.mk 2 "B" [] 2 true false] 1
    (by intro c hc; fin_cases hc <;> decide)
  exact ⟨h.1, h.2.1⟩

/-! ## Serialization of registry access (claim C9)

`Hub.Run` is the dispatcher goroutine: it is the sole consumer of the
`Register`, `Unregister` and `Broadcast` channels, so those three request
kinds access `h.Clients` inside `Run`.  `Hub.BroadcastToForm`, however, is a
plain method: it iterates `h.Clients` and, on a full send buffer, executes
`close(client.Send); delete(h.Clients, client)` directly in whatever
goroutine called it (`ResponseController.SubmitResponse`'s handler goroutine,
or the goroutine spawned for `updateAnalytics`). -/

/-- The execution contexts that can touch the registry. -/
inductive Actor where
  | dispatcher
  | caller
  deriving DecidableEq, Repr

/-- The hub's request kinds. -/
inductive HubRequest where
  | registerReq (c : Client)
  | unregisterReq (cid : Nat)
  | broadcastChan (m : String)
  | broadcastForm (formID m : String)
  deriving DecidableEq, Repr

/-- The goroutine that performs the registry access for each request, read off
the source: the first three are channel sends consumed by `Hub.Run`;
`BroadcastToForm` touches `h.Clients` in the calling goroutine (no channel
hop, no lock). -/
def registryActor : HubRequest → Actor
  | HubRequest.registerReq _ => Actor.dispatcher
  | HubRequest.unregisterReq _ => Actor.dispatcher
  | HubRequest.broadcastChan _ => Actor.dispatcher
  | HubRequest.broadcastForm _ _ => Actor.caller

/-- Effect of each request on the registry (the `Unregister` effect is its
non-panicking projection). -/
def applyRequest (cs : List Client) : HubRequest → List Client
  | HubRequest.registerReq c => registerClient cs c
  | HubRequest.unregisterReq cid => (unregister cs cid).toOption.getD cs
  | HubRequest.broadcastChan m =>
      cs.map (fun c => if c.registered = true then deliver m c else c)
  | HubRequest.broadcastForm fid m => broadcastToForm cs fid m

/-- C9 (refuting the code): `BroadcastToForm` both decides the fan-out and
mutates the registry (it evicts a saturated subscriber), yet its registry
access runs in the caller's goroutine, not in the dispatcher — so registry
mutation does not all flow through the single serialization point. -/
theorem broadcastForm_mutates_outside_dispatcher :
    registryActor (HubRequest.broadcastForm "f" "x") = Actor.caller
    ∧ registryActor (HubRequest.broadcastForm "f" "x") ≠ Actor.dispatcher
    ∧ applyRequest [Client.mk 1 "f" [] 0 true false]
        (HubRequest.broadcastForm "f" "x")
        ≠ [Client.mk 1 "f" [] 0 true false] := by
  exact ⟨rfl, by decide, by decide⟩

/-- C10: an inbound `ping` processed while the connection's send buffer is
full silently drops the `pong` reply — the connection keeps its queue, stays
open and stays registered — whereas the broadcast delivery path (`deliver`)
would close the queue and evict the connection in the same situation. -/
theorem handlePing_drops_pong_on_full (c : Client) (pong m : String)
    (hfull : ¬ c.queue.length < c.cap) :
    handlePing pong c = c
    ∧ (deliver m c).registered = false
    ∧ (deliver m c).closed = true := by
  refine ⟨by simp [handlePing, hfull], ?_, ?_⟩ <;> simp [deliver, hfull]

/-- Witness for C10: a registered, open client with a saturated buffer. -/
theorem handlePing_drops_pong_on_full_witness :
    handlePing "pong" (Client.mk 1 "A" ["q"] 1 true false)
      = Client.mk 1 "A" ["q"] 1 true false
    ∧ (deliver "x" (Client.mk 1 "A" ["q"] 1 true false)).registered = false
    ∧ (deliver "x" (Client.mk 1 "A" ["q"] 1 true false)).closed = true :=
  handlePing_drops_pong_on_full (Client.mk 1 "A" ["q"] 1 true false) "pong" "x"
    (by decide)

/-! ## Frontend reconnecting client (`WebSocketClient` in
`frontend/src/types/index.ts`) -/

/-- The reconnect-relevant state of `WebSocketClient`:
`reconnectAttempts` (initially 0), `maxReconnectAttempts` (5 in the source)
and the `isConnected` flag. -/
structure WSClient where
  reconnectAttempts : Nat
  maxReconnectAttempts : Nat
  isConnected : Bool
  deriving DecidableEq, Repr

/-- The field initializers of `WebSocketClient`. -/
def initWS : WSClient :=
  { reconnectAttempts := 0, maxReconnectAttempts := 5, isConnected := false }

/-- `handleReconnect`: if the attempt counter has reached the maximum, emit
`max_reconnect_attempts_reached` and return without scheduling (`Bool`
result `false`); otherwise increment the counter and schedule a `connect`
(`true`). -/
def handleReconnect (s : WSClient) : WSClient × Bool :=
  if s.maxReconnectAttempts ≤ s.reconnectAttempts then (s, false)
  else ({ s with reconnectAttempts := s.reconnectAttempts + 1 }, true)

/-- `socket.onopen`: mark connected and reset the attempt counter to zero. -/
def onOpen (s : WSClient) : WSClient :=
  { s with isConnected := true, reconnectAttempts := 0 }

/-- The socket events that drive the reconnect logic. -/
inductive WSEvent where
  | opened
  | closedWith (code : Nat)
  deriving DecidableEq, Repr

/-- `socket.onclose`: mark disconnected, and auto-reconnect only when the
close was not a manual close (`event.code !== 1000`). -/
def wsStep (s : WSClient) : WSEvent → WSClient × Bool
  | WSEvent.opened => (onOpen s, false)
  | WSEvent.closedWith code =>
      let s' := { s with isConnected := false }
      if code ≠ 1000 then handleReconnect s' else (s', false)

/-- Run the client over a sequence of socket events. -/
def wsRun (s : WSClient) : List WSEvent → WSClient
  | [] => s
  | e :: es => wsRun (wsStep s e).1 es

lemma wsStep_attempts_le (s : WSClient) (e : WSEvent)
    (h : s.reconnectAttempts ≤ s.maxReconnectAttempts) :
    (wsStep s e).1.reconnectAttempts ≤ (wsStep s e).1.maxReconnectAttempts
    ∧ (wsStep s e).1.maxReconnectAttempts = s.maxReconnectAttempts := by
  cases e with
  | opened => simp [wsStep, onOpen]
  | closedWith code =>
    by_cases hc : code ≠ 1000
    · by_cases hm : s.maxReconnectAttempts ≤ s.reconnectAttempts
      · simp [wsStep, handleReconnect, hc, hm, h]
      · have : s.reconnectAttempts < s.maxReconnectAttempts := Nat.lt_of_not_le hm
        simp [wsStep, handleReconnect, hc, hm]
        omega
    · simp [wsStep, hc, h]

lemma wsRun_attempts_le (es : List WSEvent) (s : WSClient)
    (h : s.reconnectAttempts ≤ s.maxReconnectAttempts) :
    (wsRun s es).reconnectAttempts ≤ (wsRun s es).maxReconnectAttempts := by
  induction es generalizing s with
  | nil => simp only [wsRun]; exact h
  | cons e es ih =>
    exact ih (wsStep s e).1 (wsStep_attempts_le s e h).1

/-- C8: the client's reconnect logic is a bounded retry state machine — from
the initial state, after any sequence of socket events the attempt counter
never exceeds the fixed maximum; once the counter has reached the maximum,
`handleReconnect` schedules no further reconnection and leaves the state
unchanged; and every successful open resets the counter to zero. -/
theorem wsClient_bounded_retry :
    (∀ es : List WSEvent,
      (wsRun initWS es).reconnectAttempts ≤ (wsRun initWS es).maxReconnectAttempts
      ∧ (wsRun initWS es).maxReconnectAttempts = 5)
    ∧ (∀ s : WSClient, s.maxReconnectAttempts ≤ s.reconnectAttempts →
        handleReconnect s = (s, false))
    ∧ (∀ s : WSClient, (onOpen s).reconnectAttempts = 0) := by
  refine ⟨fun es => ⟨wsRun_attempts_le es initWS (by simp [initWS]), ?_⟩, ?_, ?_⟩
  · have hmax : ∀ t es, (wsRun t es).maxReconnectAttempts = t.maxReconnectAttempts := by
      intro t es
      induction es generalizing t with
      | nil => rfl
      | cons e es ih =>
        have h2 : (wsStep t e).1.maxReconnectAttempts = t.maxReconnectAttempts := by
          cases e with
          | opened => simp [wsStep, onOpen]
          | closedWith code =>
            by_cases hc : code ≠ 1000
            · by_cases hm : t.maxReconnectAttempts ≤ t.reconnectAttempts <;>
                simp [wsStep, handleReconnect, hc, hm]
            · simp [wsStep, hc]
        rw [wsRun, ih, h2]
    exact hmax initWS es
  · intro s hs
    simp [handleReconnect, hs]
  · intro s
    simp [onOpen]

/-- Witness for C8: six abnormal closes from the initial state stop at the
cap of 5, and a subsequent open resets the counter. -/
theorem wsClient_bounded_retry_witness :
    (wsRun initWS (List.replicate 6 (WSEvent.closedWith 1006))).reconnectAttempts
        ≤ (wsRun initWS (List.replicate 6 (WSEvent.closedWith 1006))).maxReconnectAttempts
    ∧ handleReconnect (WSClient.mk 5 5 false) = (WSClient.mk 5 5 false, false)
    ∧ (onOpen (WSClient.mk 5 5 false)).reconnectAttempts = 0 :=
  ⟨(wsClient_bounded_retry.1 (List.replicate 6 (WSEvent.closedWith 1006))).1,
    wsClient_bounded_retry.2.1 (WSClient.mk 5 5 false) (by decide),
    wsClient_bounded_retry.2.2 (WSClient.mk 5 5 false)⟩

/-! ## Analytics aggregator (`backend/controllers/response.go`)

The Go aggregator reads responses from MongoDB; here the response set is
passed explicitly as a list.  Go `float64` arithmetic is modelled over `ℚ`.
Each division of the source is performed through `safeDiv`, which raises a
modelled error on a zero denominator, so "performs no division by zero"
becomes "the computation returns `Except.ok`". -/

/-- Field types, `models.FieldType`. -/
inductive FieldType where
  | text
  | textarea
  | email
  | number
  | multipleChoice
  | checkbox
  | rating
  | date
  deriving DecidableEq, Repr

/-- A form field, the analytics-relevant part of `models.FormField`. -/
structure FormField where
  id : String
  ftype : FieldType
  required : Bool
  deriving DecidableEq, Repr

/-- A stored answer value (`interface{}` in `response.Responses`); scalar
values as they occur in the analytics code paths. -/
inductive FieldValue where
  | nullV
  | strV (s : String)
  | numV (q : ℚ)
  | boolV (b : Bool)
  deriving DecidableEq, Repr

/-- A stored response, from `models.FormResponse`: the answers map (as an
association list) and the submission time `created_at` (seconds). -/
structure FormResponse where
  responses : List (String × FieldValue)
  createdAt : Int
  deriving DecidableEq, Repr

/-- The presence check the source uses in both the completion loop
(`value, exists := response.Responses[fieldID]; !exists || value == nil ||
value == ""`) and the per-field Mongo filters
(`$exists: true, $nin: [nil, ""]`): present and neither null nor the empty
string. -/
def presentValue (r : FormResponse) (fid : String) : Bool :=
  match r.responses.lookup fid with
  | some v => !(v = FieldValue.nullV ∨ v = FieldValue.strV "")
  | none => false

/-- The `requiredFields` list built in `calculateCompletionMetrics`. -/
def requiredIds (fields : List FormField) : List String :=
  (fields.filter (·.required)).map (·.id)

/-- `isComplete` of one response: every required field has a present,
non-empty value. -/
def isCompleteResp (req : List String) (r : FormResponse) : Bool :=
  req.all (presentValue r)

/-- `completedResponses` of `calculateCompletionMetrics`. -/
def completedCount (fields : List FormField) (rs : List FormResponse) : Nat :=
  rs.countP (isCompleteResp (requiredIds fields))

/-- The per-response completion-time heuristic: `10` seconds per answered
map entry, summed over all responses. -/
def totalCompletionTime (rs : List FormResponse) : ℚ :=
  (rs.map (fun r => (r.responses.length : ℚ) * 10)).sum

/-- `calculateCompletionMetrics`: `(completionRate, avgCompletionTime)`;
`(0, 0)` on an empty response set (the source's early return). -/
def calculateCompletionMetrics (fields : List FormField) (rs : List FormResponse) :
    ℚ × ℚ :=
  if rs.length = 0 then (0, 0)
  else
    ((completedCount fields rs : ℚ) / (rs.length : ℚ) * 100,
      totalCompletionTime rs / (rs.length : ℚ))

/-- Division instrumented to fail on a zero denominator (a Go `float64`
division never panics; this records that no division in the aggregator is
ever performed with a zero denominator). -/
def safeDiv (a b : ℚ) : Except String ℚ :=
  if b = 0 then Except.error "division by zero" else Except.ok (a / b)

lemma exceptOkBind {α β : Type} (a : α) (f : α → Except String β) :
    (Except.ok a : Except String α) >>= f = f a := rfl

lemma exceptPureEq {α : Type} (a : α) :
    (pure a : Except String α) = Except.ok a := rfl

/-- `calculateCompletionMetrics` with every division checked. -/
def calculateCompletionMetricsE (fields : List FormField)
    (rs : List FormResponse) : Except String (ℚ × ℚ) :=
  if rs.length = 0 then Except.ok (0, 0)
  else do
    let rate ← safeDiv (completedCount fields rs : ℚ) (rs.length : ℚ)
    let avg ← safeDiv (totalCompletionTime rs) (rs.length : ℚ)
    Except.ok (rate * 100, avg)

/-- Midnight of the calendar day containing `t` (seconds), for a fixed-offset
time zone: `time.Date(y, m, d, 0, 0, 0, 0, loc)` in
`calculateResponseTrends`. -/
def midnightOf (t : Int) : Int := t - t % 86400

/-- `[a, b)` membership used by the trend window
(`created_at: $gte startOfDay, $lt endOfDay`). -/
def between (a b t : Int) : Bool := decide (a ≤ t ∧ t < b)

/-- `calculateResponseTrends`: for `i = 6 .. 0`, the day start of `now - i`
days and the count of responses submitted in `[startOfDay, startOfDay+24h)`;
entry `j` of the result corresponds to `i = 6 - j`, so oldest first. -/
def calculateResponseTrends (now : Int) (rs : List FormResponse) :
    List (Int × Nat) :=
  (List.range 7).map (fun (j : Nat) =>
    let startOfDay := midnightOf (now - ((6 : Int) - (j : Int)) * 86400)
    (startOfDay, rs.countP (fun r => between startOfDay (startOfDay + 86400) r.createdAt)))

/-- Start of the oldest trend day: the whole trend covers
`[weekStart, weekStart + 7·24h)`. -/
def weekStart (now : Int) : Int := midnightOf now - 6 * 86400

/-- One `common_responses` entry: `value`, `count`,
`percentage`-of-answered. -/
structure CommonResponse where
  value : FieldValue
  count : Nat
  percentage : ℚ
  deriving DecidableEq, Repr

/-- The output of `calculateEnhancedFieldAnalytics` for one field. -/
structure FieldAnalyticsResult where
  fieldId : String
  fieldType : FieldType
  responseRate : ℚ
  skipRate : ℚ
  uniqueResponses : Nat
  commonResponses : List CommonResponse
  averageRating : Option ℚ
  deriving DecidableEq, Repr

/-- The value stored for a field in a response (only read where the presence
filter already matched). -/
def fieldValueOf (fid : String) (r : FormResponse) : FieldValue :=
  (r.responses.lookup fid).getD FieldValue.nullV

/-- Numeric projection: Mongo `$avg` ignores non-numeric values. -/
def numOf : FieldValue → Option ℚ
  | FieldValue.numV q => some q
  | _ => none

/-- Go `int(x)` on a `float64`: truncation toward zero. -/
def truncToInt (q : ℚ) : Int := if 0 ≤ q then q.floor else q.ceil

/-- The rating-distribution key: the source counts `rating.(int32)` and
`rating.(float64)` values, both through `int(...)`; other dynamic types are
not counted. -/
def ratingBucketOf : FieldValue → Option Int
  | FieldValue.numV q => some (truncToInt q)
  | _ => none

/-- `distribution[v]` for the rating field. -/
def ratingCount (ratings : List FieldValue) (v : Int) : Nat :=
  ratings.countP (fun x => ratingBucketOf x = some v)

/-- Increment the count of `v` in a grouping, first-seen order
(the Mongo `$group` stage of the choice/text pipelines). -/
def bumpCount (v : FieldValue) : List (FieldValue × Nat) → List (FieldValue × Nat)
  | [] => [(v, 1)]
  | (w, n) :: rest =>
      if w = v then (w, n + 1) :: rest else (w, n) :: bumpCount v rest

/-- Group a value list into `(value, count)` pairs. -/
def groupCounts (vs : List FieldValue) : List (FieldValue × Nat) :=
  vs.foldl (fun acc v => bumpCount v acc) []

/-- Insert into a count-descending list (stable among equal counts): the
pipelines' `$sort count: -1`, whose tie order Mongo leaves unspecified. -/
def insertByCount (p : FieldValue × Nat) :
    List (FieldValue × Nat) → List (FieldValue × Nat)
  | [] => [p]
  | q :: rest => if q.2 < p.2 then p :: q :: rest else q :: insertByCount p rest

/-- Sort `(value, count)` pairs by descending count. -/
def sortByCountDesc (l : List (FieldValue × Nat)) : List (FieldValue × Nat) :=
  l.foldr insertByCount []

/-- The display value of a grouped text answer: strings longer than 50
characters are truncated to 47 plus an ellipsis; a non-string group key
yields the empty string. -/
def displayString : FieldValue → String
  | FieldValue.strV s =>
      if 50 < s.length then ⟨s.toList.take 47⟩ ++ "..." else s
  | _ => ""

/-- `common_responses` of the choice/checkbox branch: one entry per group,
skipping `nil` group keys, `percentage = count / fieldResponseCount * 100`. -/
def commonFromGroups (denom : ℚ) :
    List (FieldValue × Nat) → Except String (List CommonResponse)
  | [] => Except.ok []
  | (v, n) :: rest => do
    let p ← safeDiv (n : ℚ) denom
    let tail ← commonFromGroups denom rest
    Except.ok ({ value := v, count := n, percentage := p * 100 } :: tail)

/-- `common_responses` of the text branch: like `commonFromGroups` but the
value is the truncated display string. -/
def commonFromGroupsText (denom : ℚ) :
    List (FieldValue × Nat) → Except String (List CommonResponse)
  | [] => Except.ok []
  | (v, n) :: rest => do
    let p ← safeDiv (n : ℚ) denom
    let tail ← commonFromGroupsText denom rest
    Except.ok
      ({ value := FieldValue.strV (displayString v), count := n,
           percentage := p * 100 } :: tail)

/-- The rating branch's bucket loop `for rating := 1; rating <= 5; rating++`:
zero-count buckets are omitted, `percentage = count / len(ratings) * 100`. -/
def ratingBucketList (ratings : List FieldValue) :
    List Int → Except String (List CommonResponse)
  | [] => Except.ok []
  | v :: rest => do
    let tail ← ratingBucketList ratings rest
    let n := ratingCount ratings v
    if 0 < n then do
      let p ← safeDiv (n : ℚ) (ratings.length : ℚ)
      Except.ok
        ({ value := FieldValue.numV (v : ℚ), count := n,
             percentage := p * 100 } :: tail)
    else Except.ok tail

/-- `calculateEnhancedFieldAnalytics`: response/skip rate (defaults `0` and
`100` when `totalResponses = 0`), then the type-specific facet. -/
def calculateEnhancedFieldAnalytics (f : FormField) (rs : List FormResponse)
    (totalResponses : Nat) : Except String FieldAnalyticsResult := do
  let fieldResponseCount := rs.countP (fun r => presentValue r f.id)
  let rates ←
    if 0 < totalResponses then do
      let rr ← safeDiv (fieldResponseCount : ℚ) (totalResponses : ℚ)
      Except.ok (rr * 100, 100 - rr * 100)
    else
      Except.ok ((0 : ℚ), (100 : ℚ))
  let base : FieldAnalyticsResult :=
    { fieldId := f.id, fieldType := f.ftype, responseRate := rates.1,
      skipRate := rates.2, uniqueResponses := 0, commonResponses := [],
      averageRating := none }
  match f.ftype with
  | FieldType.multipleChoice | FieldType.checkbox => do
      let vals := (rs.filter (fun r => presentValue r f.id)).map (fieldValueOf f.id)
      let groups := (sortByCountDesc (groupCounts vals)).take 10
      let common ← commonFromGroups (fieldResponseCount : ℚ)
        (groups.filter (fun g => ¬ g.1 = FieldValue.nullV))
      Except.ok
        { base with
            commonResponses := common
            uniqueResponses := groups.length }
  | FieldType.rating => do
      let ratings := (rs.filter (fun r => presentValue r f.id)).map (fieldValueOf f.id)
      if 0 < ratings.length then do
        let nums := ratings.filterMap numOf
        let avg ← if nums.length = 0 then Except.ok none
          else do
            let a ← safeDiv nums.sum (nums.length : ℚ)
            Except.ok (some a)
        let common ← ratingBucketList ratings [1, 2, 3, 4, 5]
        Except.ok { base with commonResponses := common, averageRating := avg }
      else Except.ok base
  | FieldType.text | FieldType.textarea | FieldType.email => do
      let vals := (rs.filter (fun r => presentValue r f.id)).map (fieldValueOf f.id)
      let groups := (sortByCountDesc (groupCounts vals)).take 5
      let common ← commonFromGroupsText (fieldResponseCount : ℚ)
        (groups.filter (fun g => ¬ g.1 = FieldValue.nullV))
      Except.ok
        { base with
            commonResponses := common
            uniqueResponses := groups.length }
  | _ => Except.ok base

/-- The analytics payload assembled by `calculateAnalytics`. -/
structure AnalyticsSummary where
  totalResponses : Nat
  completionRate : ℚ
  averageCompletionTime : ℚ
  responseTrends : List (Int × Nat)
  fieldAnalytics : List FieldAnalyticsResult
  deriving DecidableEq, Repr

/-- `calculateAnalytics`'s summary: total, completion metrics, the 7-day
trend, and the per-field analytics, where a field whose computation fails is
skipped (`continue` in the source). -/
def computeSummary (now : Int) (fields : List FormField)
    (rs : List FormResponse) : Except String AnalyticsSummary := do
  let total := rs.length
  let trends := calculateResponseTrends now rs
  let metrics ← calculateCompletionMetricsE fields rs
  let fas := fields.foldr
    (fun f acc =>
      match calculateEnhancedFieldAnalytics f rs total with
      | Except.ok a => a :: acc
      | Except.error _ => acc) []
  Except.ok
    { totalResponses := total
      completionRate := metrics.1
      averageCompletionTime := metrics.2
      responseTrends := trends
      fieldAnalytics := fas }

/-! ## Claim C5: the rating scenario -/

/-- The single required rating field of the C5 scenario. -/
def ratingField : FormField :=
  { id := "r1", ftype := FieldType.rating, required := true }

/-- The four submitted ratings `[5, 5, 3, 1]`. -/
def ratingResponses : List FormResponse :=
  [ { responses := [("r1", FieldValue.numV 5)], createdAt := 0 },
    { responses := [("r1", FieldValue.numV 5)], createdAt := 0 },
    { responses := [("r1", FieldValue.numV 3)], createdAt := 0 },
    { responses := [("r1", FieldValue.numV 1)], createdAt := 0 } ]

/-- The `common_responses` computed for the scenario. -/
def ratingScenarioCommon : List CommonResponse :=
  ((calculateEnhancedFieldAnalytics ratingField ratingResponses 4).toOption.map
    (fun a => a.commonResponses)).getD []

/-- C5: for one required rating field with submitted ratings `[5, 5, 3, 1]`,
the aggregator reports `response_rate = 100`, `average_rating = 3.5`, and
`common_responses` containing `(5, 2, 50%)`, `(3, 1, 25%)` and `(1, 1, 25%)`
with the zero-count buckets 2 and 4 omitted. -/
theorem rating_scenario_analytics :
    (calculateEnhancedFieldAnalytics ratingField ratingResponses 4).toOption.map
        (fun a => a.responseRate) = some 100
    ∧ (calculateEnhancedFieldAnalytics ratingField ratingResponses 4).toOption.map
        (fun a => a.averageRating) = some (some (7 / 2))
    ∧ CommonResponse.mk (FieldValue.numV 5) 2 50 ∈ ratingScenarioCommon
    ∧ CommonResponse.mk (FieldValue.numV 3) 1 25 ∈ ratingScenarioCommon
    ∧ CommonResponse.mk (FieldValue.numV 1) 1 25 ∈ ratingScenarioCommon
    ∧ (∀ e ∈ ratingScenarioCommon,
        ¬ e.value = FieldValue.numV 2 ∧ ¬ e.value = FieldValue.numV 4)
    ∧ ratingScenarioCommon.length = 3 := by
  have hmain : calculateEnhancedFieldAnalytics ratingField ratingResponses 4
      = Except.ok
          { fieldId := "r1", fieldType := FieldType.rating,
            responseRate := 100, skipRate := 0, uniqueResponses := 0,
            commonResponses :=
              [ CommonResponse.mk (FieldValue.numV 1) 1 25,
                CommonResponse.mk (FieldValue.numV 3) 1 25,
                CommonResponse.mk (FieldValue.numV 5) 2 50 ],
            averageRating := some (7 / 2) } := by
    have hft : ratingField.ftype = FieldType.rating := rfl
    have hcnt : ratingResponses.countP (fun r => presentValue r ratingField.id) = 4 := rfl
    have hflt : ratingResponses.filter (fun r => presentValue r ratingField.id)
        = ratingResponses := rfl
    have hmap : ratingResponses.map (fieldValueOf ratingField.id)
        = [FieldValue.numV 5, FieldValue.numV 5, FieldValue.numV 3, FieldValue.numV 1] := rfl
    have hnums : List.filterMap numOf
        [FieldValue.numV 5, FieldValue.numV 5, FieldValue.numV 3, FieldValue.numV 1]
        = [(5 : ℚ), 5, 3, 1] := rfl
    have hrc5 : ratingCount
        [FieldValue.numV 5, FieldValue.numV 5, FieldValue.numV 3, FieldValue.numV 1] 5 = 2 := rfl
    have hrc4 : ratingCount
        [FieldValue.numV 5, FieldValue.numV 5, FieldValue.numV 3, FieldValue.numV 1] 4 = 0 := rfl
    have hrc3 : ratingCount
        [FieldValue.numV 5, FieldValue.numV 5, FieldValue.numV 3, FieldValue.numV 1] 3 = 1 := rfl
    have hrc2 : ratingCount
        [FieldValue.numV 5, FieldValue.numV 5, FieldValue.numV 3, FieldValue.numV 1] 2 = 0 := rfl
    have hrc1 : ratingCount
        [FieldValue.numV 5, FieldValue.numV 5, FieldValue.numV 3, FieldValue.numV 1] 1 = 1 := rfl
    simp only [calculateEnhancedFieldAnalytics, hft, hcnt, hflt, hmap, hnums,
      hrc5, hrc4, hrc3, hrc2, hrc1, ratingBucketList, safeDiv, exceptOkBind,
      exceptPureEq, List.length_cons, List.length_nil, List.sum_cons,
      List.sum_nil]
    norm_num [exceptOkBind, exceptPureEq]
    rfl
  constructor
  · simp [hmain, Except.toOption]
  constructor
  · simp [hmain, Except.toOption]
  have hcommon : ratingScenarioCommon
      = [ CommonResponse.mk (FieldValue.numV 1) 1 25,
          CommonResponse.mk (FieldValue.numV 3) 1 25,
          CommonResponse.mk (FieldValue.numV 5) 2 50 ] := by
    simp [ratingScenarioCommon, hmain, Except.toOption]
  refine ⟨by simp [hcommon], by simp [hcommon], by simp [hcommon], ?_, by simp [hcommon]⟩
  intro e he
  rw [hcommon] at he
  fin_cases he <;> simp

/-- Witness for C5: the computed response rate and the bucket for rating 1 at
the concrete scenario. -/
theorem rating_scenario_analytics_witness :
    (calculateEnhancedFieldAnalytics ratingField ratingResponses 4).toOption.map
        (fun a => a.responseRate) = some 100
    ∧ ¬ (CommonResponse.mk (FieldValue.numV 1) 1 25).value = FieldValue.numV 2 :=
  ⟨rating_scenario_analytics.1,
    (rating_scenario_analytics.2.2.2.2.2.1
      (CommonResponse.mk (FieldValue.numV 1) 1 25)
      rating_scenario_analytics.2.2.2.2.1).1⟩

/-! ## Claim C3: the empty response set -/

lemma fieldAnalytics_empty (f : FormField) :
    calculateEnhancedFieldAnalytics f [] 0
      = Except.ok
          { fieldId := f.id, fieldType := f.ftype, responseRate := 0,
            skipRate := 100, uniqueResponses := 0, commonResponses := [],
            averageRating := none } := by
  cases f with
  | mk id ftype required => cases ftype <;> rfl

lemma computeSummary_fields_empty (fields : List FormField) :
    fields.foldr
        (fun f acc =>
          match calculateEnhancedFieldAnalytics f ([] : List FormResponse) 0 with
          | Except.ok a => a :: acc
          | Except.error _ => acc) []
      = fields.map (fun f =>
          { fieldId := f.id, fieldType := f.ftype, responseRate := 0,
            skipRate := 100, uniqueResponses := 0, commonResponses := [],
            averageRating := none }) := by
  induction fields with
  | nil => rfl
  | cons f fields ih => simp [fieldAnalytics_empty f, ih]

/-- C3 counterexample: with zero responses the per-field skip rate is 100,
not 0, so the claim that all per-field rates (response *and* skip rate)
default to 0 is false already for a single text field. -/
theorem empty_skip_rate_counterexample :
    (calculateEnhancedFieldAnalytics
        { id := "f1", ftype := FieldType.text, required := false } [] 0).toOption.map
        (fun a => a.skipRate) = some 100
    ∧ ¬ ((calculateEnhancedFieldAnalytics
        { id := "f1", ftype := FieldType.text, required := false } [] 0).toOption.map
        (fun a => a.skipRate) = some 0) := by
  have h := fieldAnalytics_empty { id := "f1", ftype := FieldType.text, required := false }
  refine ⟨by simp [h, Except.toOption], by simp [h, Except.toOption]⟩

/-- C3 (amended): for an empty response set the whole aggregation runs
without any error and without any division (every checked division returns
`ok`), and returns total `0`, completion rate `0`, average completion time
`0`, seven trend entries each with count `0`, and for every field a response
rate of `0` — with the skip rate defaulting to `100`, not `0`. -/
theorem computeSummary_empty (now : Int) (fields : List FormField) :
    computeSummary now fields []
      = Except.ok
          { totalResponses := 0, completionRate := 0,
            averageCompletionTime := 0,
            responseTrends := calculateResponseTrends now [],
            fieldAnalytics := fields.map (fun f =>
              { fieldId := f.id, fieldType := f.ftype, responseRate := 0,
                skipRate := 100, uniqueResponses := 0, commonResponses := [],
                averageRating := none }) }
    ∧ (calculateResponseTrends now []).length = 7
    ∧ (∀ e ∈ calculateResponseTrends now [], e.2 = 0)
    ∧ (∀ f ∈ fields, calculateEnhancedFieldAnalytics f [] 0
        = Except.ok
            { fieldId := f.id, fieldType := f.ftype, responseRate := 0,
              skipRate := 100, uniqueResponses := 0, commonResponses := [],
              averageRating := none }) := by
  refine ⟨?_, rfl, ?_, fun f _ => fieldAnalytics_empty f⟩
  · simp only [computeSummary, calculateCompletionMetricsE, List.length_nil,
      if_pos rfl, computeSummary_fields_empty]
    rfl
  · intro e he
    rcases List.mem_map.mp he with ⟨j, _, rfl⟩
    rfl

/-- Witness for C3 (amended) at `now = 0` with one text field. -/
theorem computeSummary_empty_witness :
    computeSummary 0 [{ id := "f1", ftype := FieldType.text, required := false }] []
      = Except.ok
          { totalResponses := 0, completionRate := 0,
            averageCompletionTime := 0,
            responseTrends := calculateResponseTrends 0 [],
            fieldAnalytics :=
              [{ fieldId := "f1", fieldType := FieldType.text,
                 responseRate := 0, skipRate := 100, uniqueResponses := 0,
                 commonResponses := [], averageRating := none }] }
    ∧ (calculateResponseTrends 0 []).length = 7
    ∧ calculateEnhancedFieldAnalytics
          { id := "f1", ftype := FieldType.text, required := false } [] 0
        = Except.ok
            { fieldId := "f1", fieldType := FieldType.text, responseRate := 0,
              skipRate := 100, uniqueResponses := 0, commonResponses := [],
              averageRating := none } :=
  ⟨(computeSummary_empty 0 [{ id := "f1", ftype := FieldType.text, required := false }]).1,
    (computeSummary_empty 0 [{ id := "f1", ftype := FieldType.text, required := false }]).2.1,
    (computeSummary_empty 0 [{ id := "f1", ftype := FieldType.text, required := false }]).2.2.2
      { id := "f1", ftype := FieldType.text, required := false } (by simp)⟩

/-! ## Claim C4: the 7-day trend -/

lemma midnightOf_shift (t k : Int) :
    midnightOf (t - k * 86400) = midnightOf t - k * 86400 := by
  unfold midnightOf
  have h : t - k * 86400 = t + 86400 * (-k) := by ring
  rw [h, Int.add_mul_emod_self_left]
  ring

lemma dayStart_eq (now : Int) :
    ∀ j : Nat, midnightOf (now - ((6 : Int) - (j : Int)) * 86400)
      = weekStart now + (j : Int) * 86400 := by
  intro j
  rw [midnightOf_shift]
  unfold weekStart
  ring

lemma countP_between_add (rs : List FormResponse) (a b c : Int)
    (h1 : a ≤ b) (h2 : b ≤ c) :
    rs.countP (fun r => between a b r.createdAt)
      + rs.countP (fun r => between b c r.createdAt)
      = rs.countP (fun r => between a c r.createdAt) := by
  induction rs with
  | nil => rfl
  | cons r rs ih =>
    have e1 : (between a b r.createdAt = true) ↔ (a ≤ r.createdAt ∧ r.createdAt < b) := by
      simp [between]
    have e2 : (between b c r.createdAt = true) ↔ (b ≤ r.createdAt ∧ r.createdAt < c) := by
      simp [between]
    have e3 : (between a c r.createdAt = true) ↔ (a ≤ r.createdAt ∧ r.createdAt < c) := by
      simp [between]
    simp only [List.countP_cons, e1, e2, e3]
    split_ifs <;> omega

lemma trend_sum_tiling (rs : List FormResponse) (w : Int) (k : Nat) :
    ((List.range k).map (fun (j : Nat) =>
        rs.countP (fun r => between (w + (j : Int) * 86400)
          (w + (j : Int) * 86400 + 86400) r.createdAt))).sum
      = rs.countP (fun r => between w (w + (k : Int) * 86400) r.createdAt) := by
  induction k with
  | zero =>
    simp only [List.range_zero, List.map_nil, List.sum_nil, Nat.cast_zero,
      zero_mul, add_zero]
    exact (List.countP_eq_zero.mpr (fun x _ => by
      simp only [between, decide_eq_true_eq, not_and, not_lt]
      omega)).symm
  | succ k ih =>
    rw [List.range_succ, List.map_append, List.sum_append]
    simp only [List.map_cons, List.map_nil, List.sum_cons, List.sum_nil,
      add_zero]
    rw [ih]
    have harg : w + ((k + 1 : Nat) : Int) * 86400
        = w + (k : Int) * 86400 + 86400 := by push_cast; ring
    rw [harg]
    have hb : w ≤ w + (k : Int) * 86400 := by
      have : (0 : Int) ≤ (k : Int) * 86400 := by positivity
      omega
    exact countP_between_add rs w (w + (k : Int) * 86400)
      (w + (k : Int) * 86400 + 86400) hb (by omega)

lemma trends_map_snd (now : Int) (rs : List FormResponse) :
    (calculateResponseTrends now rs).map Prod.snd
      = (List.range 7).map (fun (j : Nat) =>
          rs.countP (fun r => between (weekStart now + (j : Int) * 86400)
            (weekStart now + (j : Int) * 86400 + 86400) r.createdAt)) := by
  unfold calculateResponseTrends
  rw [List.map_map]
  refine List.map_congr_left (fun j _ => ?_)
  simp only [Function.comp, dayStart_eq now j]

/-- C4: the trend output always has exactly 7 entries, one per calendar day of
the trailing window in oldest-to-newest order (consecutive day starts are 24h
apart and increasing); entry `j` counts exactly the responses submitted in
`[dayStart, dayStart + 24h)` of its day; and the seven counts sum to the
number of responses submitted in the whole 7-day window
`[weekStart, weekStart + 7·24h)`. -/
theorem trends_seven_day_tiling (now : Int) (rs : List FormResponse) :
    (calculateResponseTrends now rs).length = 7
    ∧ (∀ j, j < 7 →
        (calculateResponseTrends now rs).getD j (0, 0)
          = (weekStart now + (j : Int) * 86400,
             rs.countP (fun r => between (weekStart now + (j : Int) * 86400)
               (weekStart now + (j : Int) * 86400 + 86400) r.createdAt)))
    ∧ (∀ j, j + 1 < 7 →
        ((calculateResponseTrends now rs).getD j (0, 0)).1
          < ((calculateResponseTrends now rs).getD (j + 1) (0, 0)).1)
    ∧ ((calculateResponseTrends now rs).map Prod.snd).sum
        = rs.countP (fun r => between (weekStart now)
            (weekStart now + 7 * 86400) r.createdAt) := by
  have hget : ∀ j, j < 7 →
      (calculateResponseTrends now rs).getD j (0, 0)
        = (weekStart now + (j : Int) * 86400,
           rs.countP (fun r => between (weekStart now + (j : Int) * 86400)
             (weekStart now + (j : Int) * 86400 + 86400) r.createdAt)) := by
    intro j hj
    unfold calculateResponseTrends
    rw [List.getD_eq_getElem _ _ (by simpa using hj)]
    simp only [List.getElem_map, List.getElem_range, dayStart_eq now]
  refine ⟨rfl, hget, ?_, ?_⟩
  · intro j hj
    rw [hget j (by omega), hget (j + 1) (by omega)]
    have : (0 : Int) < 86400 := by norm_num
    have hcast : ((j + 1 : Nat) : Int) = (j : Int) + 1 := by push_cast; ring
    simp only [hcast]
    nlinarith [this]
  · rw [trends_map_snd now rs]
    have h7 := trend_sum_tiling rs (weekStart now) 7
    simpa using h7

/-- Witness for C4 at `now = 0` with no responses. -/
theorem trends_seven_day_tiling_witness :
    (calculateResponseTrends 0 []).length = 7
    ∧ (calculateResponseTrends 0 []).getD 0 (0, 0)
        = (weekStart 0 + ((0 : Nat) : Int) * 86400,
           List.countP (fun r => between (weekStart 0 + ((0 : Nat) : Int) * 86400)
             (weekStart 0 + ((0 : Nat) : Int) * 86400 + 86400) r.createdAt)
             ([] : List FormResponse)) :=
  ⟨(trends_seven_day_tiling 0 []).1, (trends_seven_day_tiling 0 []).2.1 0 (by norm_num)⟩

/-! ## Claim C7: completion-rate monotonicity -/

/-- C7: appending a complete response (every required field present and
non-empty) never decreases the completion rate; appending an incomplete one
adds nothing to the completed count, so the rate changes only through the
denominator. -/
lemma calculateCompletionMetrics_fst (fields : List FormField)
    (rs : List FormResponse) :
    (calculateCompletionMetrics fields rs).1
      = if rs.length = 0 then 0
        else (completedCount fields rs : ℚ) / (rs.length : ℚ) * 100 := by
  unfold calculateCompletionMetrics
  by_cases h : rs.length = 0 <;> simp [h]

theorem completion_rate_monotone (fields : List FormField)
    (rs : List FormResponse) (r : FormResponse) :
    (isCompleteResp (requiredIds fields) r = true →
      (calculateCompletionMetrics fields rs).1
        ≤ (calculateCompletionMetrics fields (rs ++ [r])).1)
    ∧ (isCompleteResp (requiredIds fields) r = false →
      completedCount fields (rs ++ [r]) = completedCount fields rs
      ∧ (calculateCompletionMetrics fields (rs ++ [r])).1
          = (completedCount fields rs : ℚ) / ((rs.length : ℚ) + 1) * 100) := by
  have hlen : (rs ++ [r]).length = rs.length + 1 := by simp
  constructor
  · intro hc
    have hcc : completedCount fields (rs ++ [r]) = completedCount fields rs + 1 := by
      unfold completedCount
      rw [List.countP_append]
      simp [List.countP_cons, hc]
    rw [calculateCompletionMetrics_fst, calculateCompletionMetrics_fst, hcc, hlen]
    by_cases h0 : rs.length = 0
    · rw [if_pos h0, if_neg (by omega)]
      positivity
    · rw [if_neg h0, if_neg (by omega)]
      have hn : 0 < rs.length := Nat.pos_of_ne_zero h0
      have hnq : (0 : ℚ) < (rs.length : ℚ) := by exact_mod_cast hn
      have hcle : completedCount fields rs ≤ rs.length := List.countP_le_length _
      have hcq : (completedCount fields rs : ℚ) ≤ (rs.length : ℚ) := by
        exact_mod_cast hcle
      push_cast
      have key : (completedCount fields rs : ℚ) / (rs.length : ℚ)
          ≤ ((completedCount fields rs : ℚ) + 1) / ((rs.length : ℚ) + 1) := by
        rw [div_le_div_iff₀ hnq (by linarith)]
        nlinarith
      nlinarith [key]
  · intro hc
    have hcc : completedCount fields (rs ++ [r]) = completedCount fields rs := by
      unfold completedCount
      rw [List.countP_append]
      simp [List.countP_cons, hc]
    refine ⟨hcc, ?_⟩
    rw [calculateCompletionMetrics_fst, hcc, hlen, if_neg (by omega)]
    push_cast
    ring

/-- Witness for C7: one required text field; appending a complete response to
the empty set, and an incomplete response to the empty set. -/
theorem completion_rate_monotone_witness :
    (calculateCompletionMetrics [FormField.mk "a" FieldType.text true] []).1
      ≤ (calculateCompletionMetrics [FormField.mk "a" FieldType.text true]
          ([] ++ [FormResponse.mk [("a", FieldValue.strV "x")] 0])).1
    ∧ completedCount [FormField.mk "a" FieldType.text true]
          ([] ++ [FormResponse.mk [] 0])
        = completedCount [FormField.mk "a" FieldType.text true] [] :=
  ⟨(completion_rate_monotone [FormField.mk "a" FieldType.text true] []
      (FormResponse.mk [("a", FieldValue.strV "x")] 0)).1 rfl,
    ((completion_rate_monotone [FormField.mk "a" FieldType.text true] []
      (FormResponse.mk [] 0)).2 rfl).1⟩

end FormBuilder
